import Mathlib

/-!
Shallow embedding of the shuttle-agentic-rag-qdrant repository
(src/files.rs and src/agents.rs) and proofs about its claims.

Strings of the Rust program are modelled as `List Char`; a Lean `String`
literal is converted with `chars`. Floating-point embedding vectors are
never computed on by this program (they are passed opaquely between the
embedding service and the vector index), so their carrier is modelled as
`List Int`.
-/

/-- Convert a Lean string literal to the `List Char` representation used
throughout this development. -/
def chars (s : String) : List Char := s.data

/-- The character-list string type modelling Rust `String`. -/
abbrev Str := List Char

/-! ## files.rs -/

/-- Remove one trailing carriage return, as Rust `str::lines` does to a
line terminated by a newline (models the `\r` stripping of `\r\n`). -/
def stripTrailingCR : List Char → List Char
  | [] => []
  | [c] => if c = '\r' then [] else [c]
  | c :: rest => c :: stripTrailingCR rest

/-- Accumulator worker for `linesRust`. `acc` holds the characters of the
current (not yet terminated) line in reverse order. A line terminated by
`\n` has a trailing `\r` stripped; a final unterminated segment is kept
verbatim, and dropped when empty (Rust `str::lines` semantics). -/
def linesRustAux : List Char → List Char → List (List Char)
  | [], acc => if acc = [] then [] else [acc.reverse]
  | c :: rest, acc =>
    if c = '\n' then stripTrailingCR acc.reverse :: linesRustAux rest []
    else linesRustAux rest (c :: acc)

/-- Model of Rust `str::lines` as used in `File::new` (src/files.rs:27-30):
split on `\n`, strip a `\r` that directly precedes a `\n`, no final empty
line for a trailing newline. -/
def linesRust (s : List Char) : List (List Char) := linesRustAux s []

/-- The `File` struct of src/files.rs:15-19. -/
structure File where
  path : Str
  contents : Str
  rows : List Str
deriving DecidableEq, Repr

/-- `File::new` (src/files.rs:22-37) on successfully read contents: the
filesystem read itself is outside the embedding, so the contents read from
the path are passed as an argument; the function stores the path, the
unmodified contents, and `contents.lines()` collected as the rows. -/
def File.new (path : Str) (contents : Str) : File :=
  { path := path, contents := contents, rows := linesRust contents }

/-- Number of lines of a string under Rust `lines()` semantics, stated
independently of `linesRust`: the count of newline characters, plus one
when the string is non-empty and does not end with a newline. -/
def lineCount (s : List Char) : Nat :=
  if s = [] then 0
  else s.count '\n' + (if s.getLast? = some '\n' then 0 else 1)

/-- Join chunks back with newline separators (used to state that chunking
performs no per-chunk transformation and preserves order). -/
def joinNl (ls : List (List Char)) : List Char :=
  match ls with
  | [] => []
  | [l] => l
  | l :: rest => l ++ '\n' :: joinNl rest

/-- Remove one trailing newline from a string. -/
def stripTrailingNl : List Char → List Char
  | [] => []
  | [c] => if c = '\n' then [] else [c]
  | c :: rest => c :: stripTrailingNl rest

theorem stripTrailingCR_of_not_mem {l : List Char} (h : '\r' ∉ l) :
    stripTrailingCR l = l := by
  induction l with
  | nil => rfl
  | cons c rest ih =>
    cases rest with
    | nil =>
      have hc : c ≠ '\r' := fun hc => h (hc ▸ List.mem_singleton_self c)
      simp [stripTrailingCR, hc]
    | cons d rest2 =>
      simp only [stripTrailingCR]
      rw [ih (fun hm => h (List.mem_cons_of_mem c hm))]

theorem mem_stripTrailingCR {a : Char} {l : List Char}
    (h : a ∈ stripTrailingCR l) : a ∈ l := by
  induction l with
  | nil => exact absurd h (List.not_mem_nil a)
  | cons c rest ih =>
    cases rest with
    | nil =>
      by_cases hc : c = '\r'
      · simp [stripTrailingCR, hc] at h
      · simp [stripTrailingCR, hc] at h
        simp [h]
    | cons d rest2 =>
      simp only [stripTrailingCR] at h
      rcases List.mem_cons.mp h with h1 | h2
      · exact h1 ▸ List.mem_cons_self a _
      · exact List.mem_cons_of_mem c (ih h2)

theorem linesRustAux_no_newline {s acc : List Char} (hacc : '\n' ∉ acc) :
    ∀ r ∈ linesRustAux s acc, '\n' ∉ r := by
  induction s generalizing acc with
  | nil =>
    intro r hr
    by_cases h : acc = []
    · simp [linesRustAux, h] at hr
    · simp [linesRustAux, h] at hr
      subst hr
      simpa using hacc
  | cons c rest ih =>
    intro r hr
    by_cases hc : c = '\n'
    · simp only [linesRustAux, hc, if_pos rfl] at hr
      rcases List.mem_cons.mp hr with h1 | h2
      · subst h1
        intro hmem
        exact hacc (by simpa using mem_stripTrailingCR hmem)
      · exact ih (List.not_mem_nil '\n') r h2
    · simp only [linesRustAux, if_neg hc] at hr
      refine ih ?_ r hr
      intro hmem
      rcases List.mem_cons.mp hmem with h1 | h2
      · exact hc h1.symm
      · exact hacc h2

theorem linesRustAux_nil (acc : List Char) :
    linesRustAux [] acc = if acc = [] then [] else [acc.reverse] := rfl

theorem linesRustAux_cons (c : Char) (rest acc : List Char) :
    linesRustAux (c :: rest) acc =
      if c = '\n' then stripTrailingCR acc.reverse :: linesRustAux rest []
      else linesRustAux rest (c :: acc) := rfl

theorem joinNl_cons_cons (l m : List Char) (rest : List (List Char)) :
    joinNl (l :: m :: rest) = l ++ '\n' :: joinNl (m :: rest) := rfl

theorem linesRustAux_eq_nil {s acc : List Char} :
    linesRustAux s acc = [] ↔ s = [] ∧ acc = [] := by
  induction s generalizing acc with
  | nil =>
    by_cases h : acc = [] <;> simp [linesRustAux, h]
  | cons c rest ih =>
    by_cases hc : c = '\n' <;> simp [linesRustAux, hc, ih]

theorem linesRustAux_length (s : List Char) : ∀ acc,
    (linesRustAux s acc).length =
      s.count '\n' + (if s = [] then (if acc = [] then 0 else 1)
        else if s.getLast? = some '\n' then 0 else 1) := by
  induction s with
  | nil =>
    intro acc
    by_cases h : acc = [] <;> simp [linesRustAux, h]
  | cons c rest ih =>
    intro acc
    rw [linesRustAux_cons]
    by_cases hc : c = '\n'
    · subst hc
      rw [if_pos rfl, List.length_cons, ih []]
      cases rest with
      | nil => simp [List.count_cons]
      | cons d rest2 =>
        by_cases hg : (d :: rest2).getLast? = some '\n' <;>
          simp [List.count_cons, List.getLast?_cons_cons, hg]
    · rw [if_neg hc, ih (c :: acc)]
      cases rest with
      | nil =>
        simp [List.count_cons, hc, Ne.symm hc]
      | cons d rest2 =>
        by_cases hg : (d :: rest2).getLast? = some '\n' <;>
          simp [List.count_cons, List.getLast?_cons_cons, hg, Ne.symm hc]

theorem linesRust_length (s : List Char) :
    (linesRust s).length = lineCount s := by
  rw [linesRust, linesRustAux_length s [], lineCount]
  by_cases h : s = [] <;> simp [h]

theorem stripTrailingNl_cons_of_ne (c : Char) {rest : List Char}
    (h : rest ≠ []) : stripTrailingNl (c :: rest) = c :: stripTrailingNl rest := by
  cases rest with
  | nil => exact absurd rfl h
  | cons d rest2 => rfl

theorem joinNl_linesRustAux {s acc : List Char} (hs : '\r' ∉ s)
    (hacc : '\r' ∉ acc) :
    joinNl (linesRustAux s acc) =
      if s = [] ∧ acc = [] then [] else acc.reverse ++ stripTrailingNl s := by
  induction s generalizing acc with
  | nil =>
    by_cases h : acc = [] <;> simp [linesRustAux, h, joinNl, stripTrailingNl]
  | cons c rest ih =>
    have hcr : c ≠ '\r' := fun h => hs (h ▸ List.mem_cons_self c rest)
    have hrest : '\r' ∉ rest := fun h => hs (List.mem_cons_of_mem c h)
    by_cases hc : c = '\n'
    · subst hc
      have hstrip : stripTrailingCR acc.reverse = acc.reverse :=
        stripTrailingCR_of_not_mem (by simpa using hacc)
      rw [linesRustAux_cons, if_pos rfl]
      cases rest with
      | nil =>
        simp [linesRustAux_nil, hstrip, joinNl, stripTrailingNl]
      | cons d rest2 =>
        have hne : linesRustAux (d :: rest2) [] ≠ [] := by
          simp [linesRustAux_eq_nil]
        rcases List.exists_cons_of_ne_nil hne with ⟨l, tl, heq⟩
        rw [heq, joinNl_cons_cons, ← heq, hstrip,
          ih hrest (List.not_mem_nil '\r')]
        simp [stripTrailingNl_cons_of_ne]
    · rw [linesRustAux_cons, if_neg hc]
      have hacc2 : '\r' ∉ c :: acc := by
        intro hmem
        rcases List.mem_cons.mp hmem with h1 | h2
        · exact hcr h1.symm
        · exact hacc h2
      rw [ih hrest hacc2]
      cases rest with
      | nil =>
        simp [stripTrailingNl, hc]
      | cons d rest2 =>
        simp [stripTrailingNl_cons_of_ne]

theorem joinNl_linesRust {s : List Char} (hs : '\r' ∉ s) :
    joinNl (linesRust s) = stripTrailingNl s := by
  rw [linesRust, joinNl_linesRustAux hs (List.not_mem_nil '\r')]
  by_cases h : s = [] <;> simp [h, stripTrailingNl]

/-! ## agents.rs: data model

The three external services (OpenAI embeddings, the qdrant index, OpenAI
chat) are stubs: an `Env` fixes the response each service gives, and every
agent operation returns, besides its result, the ordered list of service
calls it issued. A Rust panic (`unwrap` on `None`, index out of bounds) is
the `crash` outcome, distinct from a returned `err` value. -/

/-- A payload value as produced by the `serde_json::json!` literal of
`embed_document` (src/agents.rs:147-153): a string or an array of
strings. -/
inductive JsonVal where
  | str : Str → JsonVal
  | strArr : List Str → JsonVal
deriving DecidableEq, Repr

/-- Comma-join used by `JsonVal.toText`. -/
def joinComma : List Str → Str
  | [] => []
  | [s] => s
  | s :: rest => s ++ ',' :: joinComma rest

/-- JSON rendering of a payload value, modelling the `.to_string()` call
on the retrieved qdrant `Value` (src/agents.rs:126). -/
def JsonVal.toText : JsonVal → Str
  | .str s => '"' :: (s ++ ['"'])
  | .strArr ss => '[' :: (joinComma (ss.map (fun s => '"' :: (s ++ ['"']))) ++ [']'])

/-- A qdrant payload: a finite map from field names to values. -/
abbrev Payload := List (Str × JsonVal)

/-- `payload.get(key)` on a qdrant payload map. -/
def payloadGet (p : Payload) (k : Str) : Option JsonVal :=
  (p.find? (fun kv => kv.1 == k)).map (fun kv => kv.2)

/-- The system message of src/agents.rs:20-26. -/
def SYSTEM_MESSAGE : Str :=
  chars "\n    You are a world-class data analyst, specialising in analysing comma-delimited CSV files.\n\n\tYour job is to analyse some CSV snippets and determine what the results are for the question that the user is asking.\n\n\tYou should aim to be concise. If you don't know something, don't make it up but say 'I don't know.'.\n    "

/-- The collection name of src/agents.rs:28. -/
def COLLECTION : Str := chars "my-collection"

/-- The embedding model name of src/agents.rs:31. -/
def EMBED_MODEL : Str := chars "text-embedding-ada-002"

/-- The generation model name of src/agents.rs:32. -/
def PROMPT_MODEL : Str := chars "gpt-4o"

/-- One element of the embedding-service response `data` list. -/
structure EmbeddingData where
  embedding : List Int
deriving DecidableEq, Repr

/-- One scored point of a qdrant search response, carrying its payload. -/
structure RetrievedPoint where
  payload : Payload
deriving DecidableEq, Repr

/-- The message of one chat choice; `content` is optional on the wire. -/
structure ChoiceMessage where
  content : Option Str
deriving DecidableEq, Repr

/-- One choice of a chat-completion response. -/
structure ChatChoice where
  message : ChoiceMessage
deriving DecidableEq, Repr

/-- A chat-completion response. -/
structure ChatResponse where
  choices : List ChatChoice
deriving DecidableEq, Repr

/-- A chat request message (system or user role with content). -/
inductive ChatMessage where
  | system : Str → ChatMessage
  | user : Str → ChatMessage
deriving DecidableEq, Repr

/-- `EmbeddingInput` of the embedding request: one string or an array. -/
inductive EmbeddingInput where
  | string : Str → EmbeddingInput
  | stringArray : List Str → EmbeddingInput
deriving DecidableEq, Repr

/-- `PointStruct` upserted into qdrant: id, vector and payload. -/
structure PointStruct where
  id : Str
  vector : List Int
  payload : Payload
deriving DecidableEq, Repr

/-- One remote service call issued by the agent, with its arguments. -/
inductive ServiceCall where
  | embedReq : Str → EmbeddingInput → Option Nat → ServiceCall
  | searchReq : Str → List Int → Nat → Bool → ServiceCall
  | upsertReq : Str → List PointStruct → ServiceCall
  | chatReq : Str → List ChatMessage → ServiceCall
deriving DecidableEq, Repr

/-- Whether a call is an upsert into the vector index. -/
def ServiceCall.isUpsert : ServiceCall → Bool
  | .embedReq _ _ _ => false
  | .searchReq _ _ _ _ => false
  | .upsertReq _ _ => true
  | .chatReq _ _ => false

/-- Whether a call is a chat-completion (generation) request. -/
def ServiceCall.isChat : ServiceCall → Bool
  | .embedReq _ _ _ => false
  | .searchReq _ _ _ _ => false
  | .upsertReq _ _ => false
  | .chatReq _ _ => true

/-- Whether a call is a vector-index search. -/
def ServiceCall.isSearch : ServiceCall → Bool
  | .embedReq _ _ _ => false
  | .searchReq _ _ _ _ => true
  | .upsertReq _ _ => false
  | .chatReq _ _ => false

/-- The result of an agent operation: a returned value, a returned error
(anyhow `Err`), or a Rust panic. -/
inductive Outcome (α : Type) where
  | ok : α → Outcome α
  | err : Str → Outcome α
  | crash : Outcome α
deriving DecidableEq, Repr

/-- Stubbed responses of the three external services. Each remote call of
one operation receives the corresponding response (transport failures are
the `Except.error` case). -/
structure Env where
  embedResult : Except Str (List EmbeddingData)
  searchResult : Except Str (List RetrievedPoint)
  chatResult : Except Str ChatResponse
  upsertResult : Except Str Unit
deriving Repr

/-! ## agents.rs: the agent operations -/

namespace MyAgent

/-- `MyAgent::search_document` (src/agents.rs:98-129): embed the prompt
(`data.first().unwrap()` panics on an empty data list), search the index
with limit 1 and payload enabled, and on a match read the payload field
`contents` (`unwrap` panics when the field is absent); on no match return
the anyhow error of line 127. -/
def search_document (env : Env) (prompt : Str) :
    Outcome Str × List ServiceCall :=
  let embedCall := ServiceCall.embedReq EMBED_MODEL (.string prompt) none
  match env.embedResult with
  | .error e => (.err e, [embedCall])
  | .ok data =>
    match data.head? with
    | none => (.crash, [embedCall])
    | some first =>
      let searchCall := ServiceCall.searchReq COLLECTION first.embedding 1 true
      match env.searchResult with
      | .error e => (.err e, [embedCall, searchCall])
      | .ok results =>
        match results.head? with
        | some res =>
          match payloadGet res.payload (chars "contents") with
          | some v => (.ok (JsonVal.toText v), [embedCall, searchCall])
          | none => (.crash, [embedCall, searchCall])
        | none =>
          (.err (chars "There were no results that matched :("),
            [embedCall, searchCall])

/-- `MyAgent::prompt` (src/agents.rs:58-96): retrieve context through
`search_document` (propagating its failure), compose the two chat messages
with the format string of lines 60-66, and call the chat service;
`res.choices[0]` panics on zero choices and `.content.clone().unwrap()`
panics on a missing message content. -/
def prompt (env : Env) (p : Str) : Outcome Str × List ServiceCall :=
  match search_document env p with
  | (Outcome.ok context, calls) =>
    let input := p ++ chars "\n            Provided context:\n            "
      ++ context ++ chars "\n            "
    let chatCall := ServiceCall.chatReq PROMPT_MODEL
      [ChatMessage.system SYSTEM_MESSAGE, ChatMessage.user input]
    match env.chatResult with
    | .error e => (.err e, calls ++ [chatCall])
    | .ok res =>
      match res.choices.head? with
      | none => (.crash, calls ++ [chatCall])
      | some choice =>
        match choice.message.content with
        | none => (.crash, calls ++ [chatCall])
        | some text => (.ok text, calls ++ [chatCall])
  | (Outcome.err e, calls) => (.err e, calls)
  | (Outcome.crash, calls) => (.crash, calls)

/-- The payload of the `json!` literal of src/agents.rs:147-153: the
document id (file path), the full contents, and the rows. -/
def mkPayload (file : File) : Payload :=
  [(chars "id", JsonVal.str file.path),
   (chars "content", JsonVal.str file.contents),
   (chars "rows", JsonVal.strArr file.rows)]

/-- The per-vector loop of `embed_document` (src/agents.rs:146-167): for
the `k`-th embedding in the response data, build a point with a fresh id
`uuidGen k` (modelling `uuid::Uuid::new_v4`) and the document payload, and
upsert it individually; the first upsert failure halts the loop. -/
def embedLoop (env : Env) (uuidGen : Nat → Str) (pay : Payload) :
    List EmbeddingData → Nat → Outcome Unit × List ServiceCall
  | [], _ => (.ok (), [])
  | d :: rest, k =>
    let point : PointStruct := ⟨uuidGen k, d.embedding, pay⟩
    let call := ServiceCall.upsertReq COLLECTION [point]
    match env.upsertResult with
    | .error e => (.err e, [call])
    | .ok _ =>
      let r := embedLoop env uuidGen pay rest (k + 1)
      (r.1, call :: r.2)

/-- `MyAgent::embed_document` (src/agents.rs:131-169): reject a file with
no rows before any service call (the anyhow error of line 133), otherwise
request one embedding per row in a single batched call (dimensions 1536)
and upsert one point per returned vector. -/
def embed_document (env : Env) (uuidGen : Nat → Str) (file : File) :
    Outcome Unit × List ServiceCall :=
  if file.rows = [] then (.err (chars "There's no rows to embed!"), [])
  else
    let embedCall :=
      ServiceCall.embedReq EMBED_MODEL (.stringArray file.rows) (some 1536)
    match env.embedResult with
    | .error e => (.err e, [embedCall])
    | .ok data =>
      let r := embedLoop env uuidGen (mkPayload file) data 0
      (r.1, embedCall :: r.2)

end MyAgent

/-! ## Vector-index semantics

Qdrant upsert semantics over a modelled index state (a list of points):
an upsert replaces the point with the same id when one exists and appends
the point otherwise. Used to state what ingestion does to the index. -/

/-- Upsert a single point into the index. -/
def upsertOne (index : List PointStruct) (p : PointStruct) :
    List PointStruct :=
  if index.any (fun q => q.id == p.id) then
    index.map (fun q => if q.id == p.id then p else q)
  else index ++ [p]

/-- Upsert a batch of points, in order. -/
def upsertPoints (index : List PointStruct) (ps : List PointStruct) :
    List PointStruct :=
  ps.foldl upsertOne index

/-- Apply one service call to the index state: only upserts change it. -/
def applyCall (index : List PointStruct) : ServiceCall → List PointStruct
  | ServiceCall.embedReq _ _ _ => index
  | ServiceCall.searchReq _ _ _ _ => index
  | ServiceCall.upsertReq _ ps => upsertPoints index ps
  | ServiceCall.chatReq _ _ => index

/-- Apply a call trace to the index state, in order. -/
def applyCalls (index : List PointStruct) (calls : List ServiceCall) :
    List PointStruct :=
  calls.foldl applyCall index

/-- The points `embed_document` constructs for response vectors `data`
starting at fresh-id counter `k`. -/
def pointsFrom (uuidGen : Nat → Str) (pay : Payload) :
    List EmbeddingData → Nat → List PointStruct
  | [], _ => []
  | d :: rest, k =>
    PointStruct.mk (uuidGen k) d.embedding pay :: pointsFrom uuidGen pay rest (k + 1)

/-- Whether an outcome is a returned error value (as opposed to a
returned result or a panic). -/
def Outcome.isErr {α : Type} : Outcome α → Bool
  | .err _ => true
  | _ => false

/-! ## Helper lemmas about the agent embedding -/

theorem embedLoop_ok (env : Env) (uuidGen : Nat → Str) (pay : Payload)
    (hup : env.upsertResult = .ok ()) :
    ∀ (data : List EmbeddingData) (k : Nat),
      MyAgent.embedLoop env uuidGen pay data k =
        (Outcome.ok (),
         (pointsFrom uuidGen pay data k).map
           (fun p => ServiceCall.upsertReq COLLECTION [p])) := by
  intro data
  induction data with
  | nil => intro k; rfl
  | cons d rest ih =>
    intro k
    simp only [MyAgent.embedLoop, hup, ih (k + 1), pointsFrom, List.map_cons]

theorem pointsFrom_length (uuidGen : Nat → Str) (pay : Payload) :
    ∀ (data : List EmbeddingData) (k : Nat),
      (pointsFrom uuidGen pay data k).length = data.length := by
  intro data
  induction data with
  | nil => intro k; rfl
  | cons d rest ih => intro k; simp [pointsFrom, ih]

theorem pointsFrom_mem (uuidGen : Nat → Str) (pay : Payload) :
    ∀ (data : List EmbeddingData) (k : Nat) (p : PointStruct),
      p ∈ pointsFrom uuidGen pay data k →
      ∃ j d, data[j]? = some d ∧
        p = PointStruct.mk (uuidGen (k + j)) d.embedding pay := by
  intro data
  induction data with
  | nil => intro k p hp; simp [pointsFrom] at hp
  | cons d rest ih =>
    intro k p hp
    rcases List.mem_cons.mp hp with h | h
    · exact ⟨0, d, by simp, by simpa using h⟩
    · obtain ⟨j, d2, hj, hpeq⟩ := ih (k + 1) p h
      refine ⟨j + 1, d2, by simpa using hj, ?_⟩
      have harith : k + 1 + j = k + (j + 1) := by omega
      rw [← harith]
      exact hpeq

theorem pointsFrom_pairwise (uuidGen : Nat → Str) (pay : Payload)
    (hinj : Function.Injective uuidGen) :
    ∀ (data : List EmbeddingData) (k : Nat),
      (pointsFrom uuidGen pay data k).Pairwise (fun p q => p.id ≠ q.id) := by
  intro data
  induction data with
  | nil => intro k; simp [pointsFrom]
  | cons d rest ih =>
    intro k
    refine List.Pairwise.cons ?_ (ih (k + 1))
    intro q hq
    obtain ⟨j, d2, _, hq2⟩ := pointsFrom_mem uuidGen pay rest (k + 1) q hq
    subst hq2
    intro h
    have := hinj h
    omega

theorem foldl_upsertOne_append (ps : List PointStruct) :
    ∀ index : List PointStruct,
      (∀ p ∈ ps, ∀ q ∈ index, q.id ≠ p.id) →
      ps.Pairwise (fun p q => p.id ≠ q.id) →
      ps.foldl upsertOne index = index ++ ps := by
  induction ps with
  | nil => intro index _ _; simp
  | cons p ps ih =>
    intro index hfresh hpw
    have hnone : index.any (fun q => q.id == p.id) = false := by
      rw [List.any_eq_false]
      intro q hq
      simpa using hfresh p (List.mem_cons_self p ps) q hq
    have h1 : upsertOne index p = index ++ [p] := by
      rw [upsertOne, hnone]
      rfl
    rw [List.foldl_cons, h1, ih (index ++ [p]) ?_ (List.Pairwise.of_cons hpw)]
    · simp
    · intro p2 hp2 q hq
      rcases List.mem_append.mp hq with h | h
      · exact hfresh p2 (List.mem_cons_of_mem p hp2) q h
      · rw [List.mem_singleton.mp h]
        exact List.rel_of_pairwise_cons hpw hp2

theorem applyCalls_map_upsert (ps : List PointStruct) :
    ∀ index,
      applyCalls index (ps.map (fun p => ServiceCall.upsertReq COLLECTION [p])) =
        ps.foldl upsertOne index := by
  induction ps with
  | nil => intro index; rfl
  | cons p ps ih =>
    intro index
    simp only [List.map_cons, applyCalls, List.foldl_cons]
    exact ih (upsertPoints index [p])

/-! ## Claim C3 -/

/-- C3 counterexample: the claim that every row of a loaded file is
non-empty fails on the contents `a\n\nb`: the blank middle line of the
original content becomes an empty chunk. -/
theorem C3_claim_counterexample :
    ¬ (∀ r ∈ (File.new (chars "data.csv") (chars "a\n\nb")).rows, r ≠ []) := by
  decide

/-- C3 (amended): every element of the chunk sequence produced by
`File::new` is a single line of the original content — it contains no
newline character — but it may be the empty string (a blank line of the
content yields an empty chunk). -/
theorem C3_rows_single_lines (path contents : Str) :
    ∀ r ∈ (File.new path contents).rows, '\n' ∉ r := by
  intro r hr
  exact linesRustAux_no_newline (List.not_mem_nil '\n') r hr

/-- Witness for C3 (amended) at a concrete file. -/
theorem C3_rows_single_lines_witness :
    '\n' ∉ chars "a,b" :=
  C3_rows_single_lines (chars "f.csv") (chars "a,b\nc,d") (chars "a,b")
    (by decide)

/-! ## Claim C5 -/

/-- C5: `embed_document` on a file whose chunk sequence is empty fails
with the `EmptyInput` error of src/agents.rs:133 and issues no service
call at all (its call trace is empty: no embedding request, no upsert). -/
theorem C5_embed_document_empty (env : Env) (uuidGen : Nat → Str)
    (file : File) (h : file.rows = []) :
    MyAgent.embed_document env uuidGen file =
      (Outcome.err (chars "There's no rows to embed!"), []) := by
  rw [MyAgent.embed_document, if_pos h]

/-- Witness for C5 at a concrete empty file. -/
theorem C5_embed_document_empty_witness :
    MyAgent.embed_document
        ⟨Except.ok [], Except.ok [], Except.ok ⟨[]⟩, Except.ok ()⟩
        (fun _ => chars "uuid-0") (File.new (chars "empty.csv") (chars "")) =
      (Outcome.err (chars "There's no rows to embed!"), []) :=
  C5_embed_document_empty
    ⟨Except.ok [], Except.ok [], Except.ok ⟨[]⟩, Except.ok ()⟩
    (fun _ => chars "uuid-0") (File.new (chars "empty.csv") (chars ""))
    (by decide)

/-! ## Claim C6 -/

/-- C6: chunking of `File::new`: the full text is retained unmodified;
the chunk count equals the number of lines (`lineCount`); empty input
yields zero chunks; with no carriage returns the chunks joined with
newlines reproduce the content up to one trailing newline (line order
preserved, no per-chunk transformation); and appending a trailing newline
to a non-newline-terminated content does not change the chunk count (no
empty final chunk). -/
theorem C6_load_chunking (path s : Str) :
    (File.new path s).contents = s ∧
    (File.new path s).rows.length = lineCount s ∧
    (s = [] → (File.new path s).rows = []) ∧
    ('\r' ∉ s → joinNl ((File.new path s).rows) = stripTrailingNl s) ∧
    (s ≠ [] → s.getLast? ≠ some '\n' →
      (File.new path (s ++ ['\n'])).rows.length =
        (File.new path s).rows.length) := by
  refine ⟨rfl, linesRust_length s, ?_, ?_, ?_⟩
  · intro h
    subst h
    rfl
  · intro h
    exact joinNl_linesRust h
  · intro h1 h2
    show (linesRust (s ++ ['\n'])).length = (linesRust s).length
    rw [linesRust_length, linesRust_length, lineCount, lineCount,
      if_neg (by simp : ¬ s ++ ['\n'] = []), if_neg h1,
      if_pos (List.getLast?_concat s), if_neg h2]
    simp [List.count_append]

/-- Witness for C6 at concrete contents. -/
theorem C6_load_chunking_witness :
    (File.new (chars "f.csv") (chars "a,b\nc,d\n")).rows.length = 2 ∧
    joinNl ((File.new (chars "f.csv") (chars "a,b\nc,d\n")).rows) =
      stripTrailingNl (chars "a,b\nc,d\n") ∧
    (File.new (chars "f.csv") (chars "a,b\nc,d" ++ ['\n'])).rows.length =
      (File.new (chars "f.csv") (chars "a,b\nc,d")).rows.length ∧
    (File.new (chars "f.csv") (chars "")).rows = [] := by
  refine ⟨?_, ?_, ?_, ?_⟩
  · rw [(C6_load_chunking (chars "f.csv") (chars "a,b\nc,d\n")).2.1]
    decide
  · exact (C6_load_chunking (chars "f.csv") (chars "a,b\nc,d\n")).2.2.2.1
      (by decide)
  · exact (C6_load_chunking (chars "f.csv") (chars "a,b\nc,d")).2.2.2.2
      (by decide) (by decide)
  · exact (C6_load_chunking (chars "f.csv") (chars "")).2.2.1 rfl

/-! ## Claim C1 -/

/-- The ingested document of the round-trip scenario: a one-line file. -/
def file1 : File := File.new (chars "sales.csv") (chars "42 widgets sold")

/-- Stub environment for ingesting `file1`: the embedding service returns
one vector for its one chunk, upserts succeed. -/
def envIngest : Env :=
  { embedResult := Except.ok [⟨[1]⟩], searchResult := Except.ok [],
    chatResult := Except.ok ⟨[]⟩, upsertResult := Except.ok () }

/-- Stub environment for querying after the ingest: an exact-match index
whose nearest neighbour is the point stored for `file1`, i.e. a point
whose payload is exactly the one `embed_document` wrote. -/
def envQuery : Env :=
  { embedResult := Except.ok [⟨[1]⟩],
    searchResult := Except.ok [⟨MyAgent.mkPayload file1⟩],
    chatResult := Except.ok ⟨[⟨⟨some (chars "fine")⟩⟩]⟩,
    upsertResult := Except.ok () }

/-- C1 (code bug): the round-trip of ingestion and retrieval is broken by
a payload field-name mismatch. Ingesting `file1` stores exactly one point
whose payload has the fields `id`, `content` and `rows`
(src/agents.rs:147-153); the field `contents` that `search_document`
reads (src/agents.rs:126) is absent from that payload, so a query whose
nearest-neighbour match is the stored point panics on `unwrap` instead of
returning the chunk's content as context. -/
theorem C1_roundtrip_field_mismatch :
    (MyAgent.embed_document envIngest (fun _ => chars "uuid-0") file1).2 =
      [ServiceCall.embedReq EMBED_MODEL
         (EmbeddingInput.stringArray [chars "42 widgets sold"]) (some 1536),
       ServiceCall.upsertReq COLLECTION
         [⟨chars "uuid-0", [1], MyAgent.mkPayload file1⟩]] ∧
    payloadGet (MyAgent.mkPayload file1) (chars "contents") = none ∧
    (MyAgent.search_document envQuery (chars "42 widgets sold")).1 =
      Outcome.crash := by
  refine ⟨?_, rfl, rfl⟩
  rfl

/-! ## Claim C2 -/

/-- Stub environment whose search result's payload carries only the
fields `embed_document` actually writes — the field `contents` that
`search_document` expects is absent. -/
def envNoField : Env :=
  { embedResult := Except.ok [⟨[1]⟩],
    searchResult :=
      Except.ok [⟨[(chars "content", JsonVal.str (chars "full text"))]⟩],
    chatResult := Except.ok ⟨[]⟩, upsertResult := Except.ok () }

/-- C2 counterexample: when the retrieved point lacks the expected
payload field, the operation does not fail with a returned error value as
the claim states: it panics (`unwrap` on `None`, src/agents.rs:126). -/
theorem C2_claim_counterexample :
    (MyAgent.search_document envNoField (chars "query")).1 = Outcome.crash ∧
    ((MyAgent.search_document envNoField (chars "query")).1).isErr = false :=
  ⟨rfl, rfl⟩

/-- C2 (amended): for every search result returned by the index, the
agent extracts the retrieved point's `contents` payload field as the
context text when that field is present; when the field is absent the
operation panics (`unwrap` on `None`) — in neither case is there a silent
empty-context fallback, but the absence case is a crash, not a returned
`MalformedPayload` error value. -/
theorem C2_payload_field_extraction (env : Env) (q : Str)
    (d : EmbeddingData) (ds : List EmbeddingData) (pt : RetrievedPoint)
    (pts : List RetrievedPoint)
    (hemb : env.embedResult = Except.ok (d :: ds))
    (hsearch : env.searchResult = Except.ok (pt :: pts)) :
    (∀ v, payloadGet pt.payload (chars "contents") = some v →
      (MyAgent.search_document env q).1 = Outcome.ok (JsonVal.toText v)) ∧
    (payloadGet pt.payload (chars "contents") = none →
      (MyAgent.search_document env q).1 = Outcome.crash) := by
  constructor
  · intro v hv
    simp [MyAgent.search_document, hemb, hsearch, hv]
  · intro hv
    simp [MyAgent.search_document, hemb, hsearch, hv]

/-- Stub environment whose search result carries the expected `contents`
payload field. -/
def envWithField : Env :=
  { embedResult := Except.ok [⟨[1]⟩],
    searchResult :=
      Except.ok [⟨[(chars "contents", JsonVal.str (chars "42 widgets sold"))]⟩],
    chatResult := Except.ok ⟨[⟨⟨some (chars "fine")⟩⟩]⟩,
    upsertResult := Except.ok () }

/-- Witness for C2 (amended) at a concrete environment. -/
theorem C2_payload_field_extraction_witness :
    (MyAgent.search_document envWithField (chars "how many widgets?")).1 =
      Outcome.ok (JsonVal.toText (JsonVal.str (chars "42 widgets sold"))) :=
  (C2_payload_field_extraction envWithField (chars "how many widgets?")
    ⟨[1]⟩ [] ⟨[(chars "contents", JsonVal.str (chars "42 widgets sold"))]⟩ []
    rfl rfl).1 (JsonVal.str (chars "42 widgets sold")) rfl

/-! ## Claim C4 -/

/-- Stub environment where retrieval succeeds and the generation service
returns zero choices. -/
def envNoChoices : Env :=
  { embedResult := Except.ok [⟨[1]⟩],
    searchResult :=
      Except.ok [⟨[(chars "contents", JsonVal.str (chars "ctx"))]⟩],
    chatResult := Except.ok ⟨[]⟩, upsertResult := Except.ok () }

/-- C4 counterexample: on a generation-service response with zero
choices, `prompt` does not return an error value as the claim states: it
panics (`res.choices[0]` index out of bounds, src/agents.rs:90). -/
theorem C4_claim_counterexample :
    (MyAgent.prompt envNoChoices (chars "query")).1 = Outcome.crash ∧
    ((MyAgent.prompt envNoChoices (chars "query")).1).isErr = false :=
  ⟨rfl, rfl⟩

/-- C4 (amended): for every generation-service response with zero
choices, `prompt` (answer) panics — an index-out-of-bounds crash on
`res.choices[0]` — rather than returning a `NoChoices` error value. -/
theorem C4_no_choices_crashes (env : Env) (q context : Str)
    (calls : List ServiceCall)
    (hsearch : MyAgent.search_document env q = (Outcome.ok context, calls))
    (hchat : env.chatResult = Except.ok ⟨[]⟩) :
    (MyAgent.prompt env q).1 = Outcome.crash := by
  simp [MyAgent.prompt, hsearch, hchat]

/-- Witness for C4 (amended) at a concrete environment. -/
theorem C4_no_choices_crashes_witness :
    (MyAgent.prompt envNoChoices (chars "query")).1 = Outcome.crash :=
  C4_no_choices_crashes envNoChoices (chars "query")
    (JsonVal.toText (JsonVal.str (chars "ctx")))
    [ServiceCall.embedReq EMBED_MODEL (EmbeddingInput.string (chars "query")) none,
     ServiceCall.searchReq COLLECTION [1] 1 true]
    rfl rfl

/-! ## Claim C10 -/

/-- Stub environment whose embedding-service response has an empty data
list. -/
def envEmptyEmbed : Env :=
  { embedResult := Except.ok [], searchResult := Except.ok [],
    chatResult := Except.ok ⟨[]⟩, upsertResult := Except.ok () }

/-- Stub environment where retrieval succeeds and the generation
service's first choice has no message content. -/
def envNoContent : Env :=
  { embedResult := Except.ok [⟨[1]⟩],
    searchResult :=
      Except.ok [⟨[(chars "contents", JsonVal.str (chars "ctx"))]⟩],
    chatResult := Except.ok ⟨[⟨⟨none⟩⟩]⟩, upsertResult := Except.ok () }

/-- C10: `answer` is not total over well-formed service responses: on an
embedding-service response with an empty data list it panics
(`data.first().unwrap()`, src/agents.rs:108), and on a generation-service
response whose first choice has no message content it panics
(`.content.clone().unwrap()`, src/agents.rs:90) — in both cases a crash,
not a returned error value. -/
theorem C10_prompt_crashes :
    (MyAgent.prompt envEmptyEmbed (chars "query")).1 = Outcome.crash ∧
    (MyAgent.prompt envNoContent (chars "query")).1 = Outcome.crash :=
  ⟨rfl, rfl⟩

/-! ## Claim C8 -/

/-- C8: when the embedding succeeds and the index search returns no
match, `prompt` (answer) fails with the `NoResults` error of
src/agents.rs:127 and its call trace contains no chat (generation)
request. -/
theorem C8_no_results (env : Env) (q : Str) (d : EmbeddingData)
    (ds : List EmbeddingData)
    (hemb : env.embedResult = Except.ok (d :: ds))
    (hsearch : env.searchResult = Except.ok []) :
    (MyAgent.prompt env q).1 =
      Outcome.err (chars "There were no results that matched :(") ∧
    ((MyAgent.prompt env q).2.all (fun c => !c.isChat)) = true := by
  have hs : MyAgent.search_document env q =
      (Outcome.err (chars "There were no results that matched :("),
       [ServiceCall.embedReq EMBED_MODEL (EmbeddingInput.string q) none,
        ServiceCall.searchReq COLLECTION d.embedding 1 true]) := by
    simp [MyAgent.search_document, hemb, hsearch]
  constructor
  · simp [MyAgent.prompt, hs]
  · simp [MyAgent.prompt, hs, ServiceCall.isChat]

/-- Stub environment with a working embedding service and an index whose
search always returns no match. -/
def envNoMatch : Env :=
  { embedResult := Except.ok [⟨[1]⟩], searchResult := Except.ok [],
    chatResult := Except.ok ⟨[⟨⟨some (chars "hi")⟩⟩]⟩,
    upsertResult := Except.ok () }

/-- Witness for C8 at a concrete environment. -/
theorem C8_no_results_witness :
    (MyAgent.prompt envNoMatch (chars "query")).1 =
      Outcome.err (chars "There were no results that matched :(") ∧
    ((MyAgent.prompt envNoMatch (chars "query")).2.all (fun c => !c.isChat)) =
      true :=
  C8_no_results envNoMatch (chars "query") ⟨[1]⟩ [] rfl rfl

/-! ## Claim C9 -/

theorem search_document_calls (env : Env) (q : Str) :
    (MyAgent.search_document env q).2 =
      [ServiceCall.embedReq EMBED_MODEL (EmbeddingInput.string q) none] ∨
    ∃ v, (MyAgent.search_document env q).2 =
      [ServiceCall.embedReq EMBED_MODEL (EmbeddingInput.string q) none,
       ServiceCall.searchReq COLLECTION v 1 true] := by
  rcases henv : env.embedResult with e | data
  · left
    simp [MyAgent.search_document, henv]
  · rcases hh : data.head? with _ | first
    · left
      simp [MyAgent.search_document, henv, hh]
    · right
      refine ⟨first.embedding, ?_⟩
      rcases hs : env.searchResult with e | results
      · simp [MyAgent.search_document, henv, hh, hs]
      · rcases hr : results.head? with _ | res
        · simp [MyAgent.search_document, henv, hh, hs, hr]
        · rcases hp : payloadGet res.payload (chars "contents") with _ | v <;>
            simp [MyAgent.search_document, henv, hh, hs, hr, hp]

theorem prompt_calls (env : Env) (q : Str) :
    (MyAgent.prompt env q).2 = (MyAgent.search_document env q).2 ∨
    ∃ m, (MyAgent.prompt env q).2 =
      (MyAgent.search_document env q).2 ++
        [ServiceCall.chatReq PROMPT_MODEL m] := by
  rcases hs : MyAgent.search_document env q with ⟨out, calls⟩
  rcases out with context | e | _
  · right
    refine ⟨[ChatMessage.system SYSTEM_MESSAGE,
      ChatMessage.user (q ++ chars "\n            Provided context:\n            "
        ++ context ++ chars "\n            ")], ?_⟩
    rcases hc : env.chatResult with e | res
    · simp [MyAgent.prompt, hs, hc]
    · rcases hh : res.choices.head? with _ | choice
      · simp [MyAgent.prompt, hs, hc, hh]
      · rcases hm : choice.message.content with _ | text <;>
          simp [MyAgent.prompt, hs, hc, hh, hm]
  · left
    simp [MyAgent.prompt, hs]
  · left
    simp [MyAgent.prompt, hs]

/-- A call `answer` is allowed to make under claim C9: never an upsert,
and any index search uses limit 1 with payload inclusion. -/
def answerCallOk : ServiceCall → Bool
  | ServiceCall.embedReq _ _ _ => true
  | ServiceCall.searchReq _ _ limit withPayload => limit == 1 && withPayload
  | ServiceCall.upsertReq _ _ => false
  | ServiceCall.chatReq _ _ => true

/-- C9: for every stub environment and query, `prompt` (answer) never
issues an upsert call — every call it makes satisfies `answerCallOk`, in
particular any search uses limit 1 and payload inclusion — it performs at
most one search, and its call trace leaves any modelled index state
unchanged. -/
theorem C9_prompt_read_only (env : Env) (q : Str) :
    ((MyAgent.prompt env q).2.all answerCallOk) = true ∧
    ((MyAgent.prompt env q).2.countP (fun c => c.isSearch)) ≤ 1 ∧
    (∀ index : List PointStruct,
      applyCalls index (MyAgent.prompt env q).2 = index) := by
  have hpc := prompt_calls env q
  have hsc := search_document_calls env q
  rcases hpc with hpc | ⟨m, hpc⟩ <;> rcases hsc with hsc | ⟨v, hsc⟩ <;>
    rw [hpc, hsc] <;>
    exact ⟨by simp [answerCallOk], by simp [List.countP_cons, ServiceCall.isSearch],
      fun index => by simp [applyCalls, applyCall]⟩

/-! ## Claim C7 -/

theorem countP_isUpsert_map (ps : List PointStruct) :
    List.countP (fun c => c.isUpsert)
      (ps.map (fun p => ServiceCall.upsertReq COLLECTION [p])) = ps.length := by
  induction ps with
  | nil => rfl
  | cons p ps ih => simp [List.countP_cons, ServiceCall.isUpsert, ih]

/-- C7: successful ingestion of a document with N chunks, given an
embedding-service response of N order-aligned vectors and succeeding
upserts: the operation succeeds, issues exactly N upsert calls, each one
storing a single point whose id is the freshly generated `uuidGen k` and
whose payload is the document payload (identifier, full text and entire
chunk list, src/agents.rs:147-153); and when the fresh ids are injective
and disjoint from the ids of any prior index state, applying the trace
appends the N new points after the unchanged prior points — no prior
point is overwritten. -/
theorem C7_ingest_upserts (env : Env) (uuidGen : Nat → Str) (file : File)
    (data : List EmbeddingData)
    (hrows : file.rows ≠ [])
    (hemb : env.embedResult = Except.ok data)
    (hlen : data.length = file.rows.length)
    (hup : env.upsertResult = Except.ok ()) :
    (MyAgent.embed_document env uuidGen file).1 = Outcome.ok () ∧
    ((MyAgent.embed_document env uuidGen file).2.countP
      (fun c => c.isUpsert)) = file.rows.length ∧
    (∀ c ∈ (MyAgent.embed_document env uuidGen file).2, c.isUpsert = true →
      ∃ k d, data[k]? = some d ∧
        c = ServiceCall.upsertReq COLLECTION
          [PointStruct.mk (uuidGen k) d.embedding (MyAgent.mkPayload file)]) ∧
    (Function.Injective uuidGen →
      ∀ index : List PointStruct,
        (∀ p ∈ index, ∀ k, p.id ≠ uuidGen k) →
        applyCalls index (MyAgent.embed_document env uuidGen file).2 =
          index ++ pointsFrom uuidGen (MyAgent.mkPayload file) data 0) := by
  have hmain : MyAgent.embed_document env uuidGen file =
      (Outcome.ok (),
       ServiceCall.embedReq EMBED_MODEL
         (EmbeddingInput.stringArray file.rows) (some 1536) ::
         (pointsFrom uuidGen (MyAgent.mkPayload file) data 0).map
           (fun p => ServiceCall.upsertReq COLLECTION [p])) := by
    rw [MyAgent.embed_document, if_neg hrows]
    simp [hemb, embedLoop_ok env uuidGen (MyAgent.mkPayload file) hup data 0]
  rw [hmain]
  refine ⟨rfl, ?_, ?_, ?_⟩
  · rw [List.countP_cons, countP_isUpsert_map, pointsFrom_length, hlen]
    simp [ServiceCall.isUpsert]
  · intro c hc hcu
    rcases List.mem_cons.mp hc with h | h
    · rw [h] at hcu
      simp [ServiceCall.isUpsert] at hcu
    · obtain ⟨p, hp, hpc⟩ := List.mem_map.mp h
      obtain ⟨j, d, hj, hpe⟩ :=
        pointsFrom_mem uuidGen (MyAgent.mkPayload file) data 0 p hp
      refine ⟨j, d, hj, ?_⟩
      rw [← hpc, hpe]
      simp
  · intro hinj index hfresh
    have h1 : applyCalls index
        (ServiceCall.embedReq EMBED_MODEL
          (EmbeddingInput.stringArray file.rows) (some 1536) ::
          (pointsFrom uuidGen (MyAgent.mkPayload file) data 0).map
            (fun p => ServiceCall.upsertReq COLLECTION [p])) =
        applyCalls index
          ((pointsFrom uuidGen (MyAgent.mkPayload file) data 0).map
            (fun p => ServiceCall.upsertReq COLLECTION [p])) := rfl
    rw [h1, applyCalls_map_upsert]
    refine foldl_upsertOne_append _ index ?_
      (pointsFrom_pairwise uuidGen (MyAgent.mkPayload file) hinj data 0)
    intro p hp qq hq
    obtain ⟨j, d, _, hpe⟩ :=
      pointsFrom_mem uuidGen (MyAgent.mkPayload file) data 0 p hp
    rw [hpe]
    exact hfresh qq hq (0 + j)

/-- The injective fresh-id generator of the C7 witness. -/
def uuidReplicate (n : Nat) : Str := List.replicate (n + 1) 'u'

theorem uuidReplicate_injective : Function.Injective uuidReplicate := by
  intro a b h
  have h2 : a + 1 = b + 1 := by
    simpa [uuidReplicate] using congrArg List.length h
  omega

/-- The two-line document of the C7 witness. -/
def file7 : File := File.new (chars "f.csv") (chars "a,b\nc,d")

/-- Stub environment of the C7 witness: two order-aligned vectors for the
two chunks. -/
def env7 : Env :=
  { embedResult := Except.ok [⟨[1]⟩, ⟨[2]⟩], searchResult := Except.ok [],
    chatResult := Except.ok ⟨[]⟩, upsertResult := Except.ok () }

/-- A pre-existing index point whose id differs from every fresh id. -/
def priorPoint : PointStruct := ⟨[], [7], []⟩

/-- Witness for C7 at a concrete environment: two upsert calls for the
two chunks, and the prior index point survives with the two new points
appended. -/
theorem C7_ingest_upserts_witness :
    ((MyAgent.embed_document env7 uuidReplicate file7).2.countP
      (fun c => c.isUpsert)) = 2 ∧
    applyCalls [priorPoint]
        (MyAgent.embed_document env7 uuidReplicate file7).2 =
      [priorPoint] ++
        pointsFrom uuidReplicate (MyAgent.mkPayload file7)
          [⟨[1]⟩, ⟨[2]⟩] 0 := by
  have h := C7_ingest_upserts env7 uuidReplicate file7 [⟨[1]⟩, ⟨[2]⟩]
    (by decide) rfl (by decide) rfl
  refine ⟨?_, ?_⟩
  · rw [h.2.1]
    decide
  · refine h.2.2.2 uuidReplicate_injective [priorPoint] ?_
    intro p hp k
    rw [List.mem_singleton.mp hp]
    intro hbad
    have := congrArg List.length hbad
    simp [priorPoint, uuidReplicate] at this
